import Mathlib

/-!
Shallow embedding of the `mt-mvp` multi-token contract (src/src/lib.rs,
src/src/resolver.rs, src/src/defi.rs) and proofs about its public API.

Modelling conventions:
* `AccountId` and `TokenId` are `String`s, as in the source.
* `u128` and `u64` values are `Nat`s together with the explicit bounds
  `U128MAX` and `U64MAX`; `checked_add` / `checked_sub` become explicit
  comparisons against those bounds.
* `near_sdk::collections::LookupMap` / `UnorderedMap` are association
  lists (`List (String × β)`); `insert` updates the first occurrence of a
  key in place and appends a fresh key at the end, which matches the
  insertion-ordered iteration of `UnorderedMap`.
* A Rust `panic!` / failed `require!` / `expect` aborts the NEAR call and
  discards every state change of that call, so each fallible operation is
  an `Except MTError` value: `.error e` carries no state, i.e. the ledger
  is unchanged on every failing call.
-/

def U128MAX : Nat := 2 ^ 128 - 1

def U64MAX : Nat := 2 ^ 64 - 1

/-- Association-list lookup: value at the first occurrence of the key. -/
def alookup {β : Type} (k : String) : List (String × β) → Option β
  | [] => none
  | (k', v) :: rest => if k = k' then some v else alookup k rest

/-- Association-list insert: overwrite the first occurrence of the key in
place, or append the new binding at the end. -/
def ainsert {β : Type} (k : String) (v : β) : List (String × β) → List (String × β)
  | [] => [(k, v)]
  | (k', v') :: rest => if k = k' then (k, v) :: rest else (k', v') :: ainsert k v rest

/-- Error taxonomy of the contract (spec §7); in the source each of these
is a panic with a fixed message. -/
inductive MTError where
  | Unauthorized
  | CounterOverflow
  | TokenNotFound
  | SameAccount
  | ZeroAmount
  | InsufficientBalance
  | Overflow
  | MismatchedLengths
  | UntrustedCaller
  | UnparseableMessage
  | DeliberateFailure
deriving DecidableEq, Repr

/-- Struct `Token`, read model (src/src/token.rs). -/
structure Token where
  token_id : String
  owner_id : String
  supply : Nat
deriving DecidableEq, Repr

/-- Ledger state of the contract (src/src/lib.rs, `MultiTokenContract`). -/
structure MultiTokenContract where
  owner_id : String
  total_supply : List (String × Nat)
  owner_by_id : List (String × String)
  balances_per_token : List (String × List (String × Nat))
  tokens_per_owner : List (String × List String)
  next_token_id : Nat
deriving DecidableEq, Repr

/-- Constructor `MultiTokenContract::new`: all collections start empty, counter at 0. -/
def MultiTokenContract.new (owner_id : String) : MultiTokenContract :=
  { owner_id := owner_id
    total_supply := []
    owner_by_id := []
    balances_per_token := []
    tokens_per_owner := []
    next_token_id := 0 }

/-- Method `mt_mint` (lib.rs:70-104): owner-only; bumps the u64 counter with
`checked_add`, uses its decimal rendering as the fresh token id, records
total supply and minting-time owner, and credits the full supply to the
token owner in a fresh per-token balance map. -/
def MultiTokenContract.mt_mint (s : MultiTokenContract)
    (caller token_owner_id : String) (supply : Nat) :
    Except MTError (Token × MultiTokenContract) :=
  if caller ≠ s.owner_id then .error .Unauthorized
  else if U64MAX < s.next_token_id + 1 then .error .CounterOverflow
  else
    let next := s.next_token_id + 1
    let token_id := Nat.repr next
    let new_account_balance := ainsert token_owner_id supply ([] : List (String × Nat))
    .ok
      ({ token_id := token_id, owner_id := token_owner_id, supply := supply },
        { s with
          next_token_id := next
          total_supply := ainsert token_id supply s.total_supply
          owner_by_id := ainsert token_id token_owner_id s.owner_by_id
          balances_per_token := ainsert token_id new_account_balance s.balances_per_token })

/-- Method `internal_unwrap_balance_of` (lib.rs:421-427): panic (`TokenNotFound`)
if the token has no balance map, otherwise the account's entry or 0. -/
def MultiTokenContract.internal_unwrap_balance_of (s : MultiTokenContract)
    (token_id account_id : String) : Except MTError Nat :=
  match alookup token_id s.balances_per_token with
  | none => .error .TokenNotFound
  | some m => .ok ((alookup account_id m).getD 0)

/-- Method `internal_transfer` (lib.rs:394-418). The sender's balance is read via
`internal_unwrap_balance_of` (inlined here: the token lookup doubles as
the later `expect("Token not found")`, which can no longer fail at that
point); the receiver's balance is read after the sender's debit has been
written, exactly as the storage-backed maps behave in the source. -/
def MultiTokenContract.internal_transfer (s : MultiTokenContract)
    (sender_id receiver_id token_id : String) (amount : Nat) :
    Except MTError MultiTokenContract :=
  if sender_id = receiver_id then .error .SameAccount
  else if amount = 0 then .error .ZeroAmount
  else
    match alookup token_id s.balances_per_token with
    | none => .error .TokenNotFound
    | some m =>
      let balance := (alookup sender_id m).getD 0
      if balance < amount then .error .InsufficientBalance
      else
        let m1 := ainsert sender_id (balance - amount) m
        let receiver_balance := (alookup receiver_id m1).getD 0
        if U128MAX < receiver_balance + amount then .error .Overflow
        else
          .ok { s with balances_per_token :=
            (ainsert token_id (ainsert receiver_id (receiver_balance + amount) m1)
              s.balances_per_token) }

/-- Method `mt_transfer` (lib.rs:118-131): `internal_transfer` with the caller
(`env::predecessor_account_id()`) as sender; `memo` is unused. -/
def MultiTokenContract.mt_transfer (s : MultiTokenContract)
    (caller receiver_id token_id : String) (amount : Nat) :
    Except MTError MultiTokenContract :=
  s.internal_transfer caller receiver_id token_id amount

/-- The pair loop of `mt_batch_transfer`: one `mt_transfer` per
`(token_id, amount)` pair, in order, aborting the whole call on the first
failure (a panic discards all of the call's state changes). -/
def MultiTokenContract.batch_go (caller receiver_id : String) :
    List (String × Nat) → MultiTokenContract → Except MTError MultiTokenContract
  | [], s => .ok s
  | (t, a) :: rest, s =>
    match s.mt_transfer caller receiver_id t a with
    | .error e => .error e
    | .ok s1 => MultiTokenContract.batch_go caller receiver_id rest s1

/-- Method `mt_batch_transfer` (lib.rs:192-209), verbatim including its length
check: `require!(token_ids.len() != amounts.len(), ..)` panics exactly
when the condition is FALSE, i.e. when the two lengths are EQUAL; with
unequal lengths the guard passes and `zip` silently truncates to the
shorter list. -/
def MultiTokenContract.mt_batch_transfer (s : MultiTokenContract)
    (caller receiver_id : String) (token_ids : List String) (amounts : List Nat) :
    Except MTError MultiTokenContract :=
  if token_ids.length = amounts.length then .error .MismatchedLengths
  else MultiTokenContract.batch_go caller receiver_id (token_ids.zip amounts) s

/-- Method `mt_balance_of` (lib.rs:289-292). -/
def MultiTokenContract.mt_balance_of (s : MultiTokenContract)
    (account_id token_id : String) : Except MTError Nat :=
  s.internal_unwrap_balance_of token_id account_id

/-- Method `mt_supply` (lib.rs:313-315). -/
def MultiTokenContract.mt_supply (s : MultiTokenContract) (token_id : String) : Option Nat :=
  alookup token_id s.total_supply

/-- Method `get_token` (lib.rs:380-391); `none` models the
`expect("Total supply not found by token id")` panic. -/
def MultiTokenContract.get_token (s : MultiTokenContract)
    (owner_id token_id : String) : Option Token :=
  (alookup token_id s.total_supply).map fun supply =>
    { token_id := token_id, owner_id := owner_id, supply := supply }

/-- Rust `.map(..).collect()` over an iterator whose body can panic: the first
panic aborts the whole call (`none`). -/
def omap {α β : Type} (f : α → Option β) : List α → Option (List β)
  | [] => some []
  | a :: as =>
    match f a, omap f as with
    | some b, some bs => some (b :: bs)
    | _, _ => none

/-- Rust `as usize` on the contract's compilation target: NEAR contracts
are built for wasm32, whose `usize` is 32 bits, so the cast keeps the low
32 bits of the value (an `as`-cast in Rust truncates, it never fails). -/
def usize_of (n : Nat) : Nat := n % 2 ^ 32

/-- Method `mt_tokens` (lib.rs:341-348): iterate `owner_by_id` in insertion
order, `skip` `from_index.unwrap_or_default().0 as usize` (u128 cast down
to usize) and `take` `limit.unwrap_or(u64::MAX) as usize` (u64 cast down
to usize), building each `Token` via `get_token`. -/
def MultiTokenContract.mt_tokens (s : MultiTokenContract)
    (from_index limit : Option Nat) : Option (List Token) :=
  omap (fun p => s.get_token p.2 p.1)
    ((s.owner_by_id.drop (usize_of (from_index.getD 0))).take
      (usize_of (limit.getD U64MAX)))

/-- Method `mt_tokens_for_owner` (lib.rs:360-376): same pagination (with
the same `as usize` casts, lib.rs:370-371) over the `tokens_per_owner`
set of the account; an absent set yields `[]`. -/
def MultiTokenContract.mt_tokens_for_owner (s : MultiTokenContract)
    (account_id : String) (from_index limit : Option Nat) : Option (List Token) :=
  match alookup account_id s.tokens_per_owner with
  | none => some []
  | some set =>
    omap (fun token_id => s.get_token account_id token_id)
      ((set.drop (usize_of (from_index.getD 0))).take (usize_of (limit.getD U64MAX)))

/-- Modelled from the spec: the body of `mt_resolve_transfer` is absent
from src/ (src/src/resolver.rs only declares the trait). Per spec §4.3,
per token the settlement reverses the unused amount `u` from receiver
back to sender, "bounded by whatever balance the receiver still has — it
cannot go negative", and returns the amount retained by the receiver,
`amount − u`. This helper settles one token. -/
def settle_one (sender_id receiver_id token_id : String) (amount u : Nat)
    (s : MultiTokenContract) : Nat × MultiTokenContract :=
  let m := (alookup token_id s.balances_per_token).getD []
  let rb := (alookup receiver_id m).getD 0
  let r := min u rb
  let m1 := ainsert receiver_id (rb - r) m
  let sb := (alookup sender_id m1).getD 0
  let m2 := ainsert sender_id (sb + r) m1
  (amount - u, { s with balances_per_token := (ainsert token_id m2 s.balances_per_token) })

/-- Modelled from the spec: `mt_resolve_transfer` (declared at
src/src/resolver.rs:35-41, body not in src/). `unused` is the per-token
unused amount reported by the notification chain: the full `amounts`
vector when the chain failed, the receiver's reported vector on success
(spec: 0 ≤ u ≤ transferred amount). Returns, per token, the amount
retained by the receiver. -/
def mt_resolve_transfer (sender_id receiver_id : String) :
    List (String × (Nat × Nat)) → MultiTokenContract → List Nat × MultiTokenContract
  | [], s => ([], s)
  | (t, a, u) :: rest, s =>
    let p := settle_one sender_id receiver_id t a u s
    let q := mt_resolve_transfer sender_id receiver_id rest p.2
    (p.1 :: q.1, q.2)

/-- The Move-then-Settle composition of a single-token `mt_transfer_call`
(lib.rs:141-177): synchronous `internal_transfer`, then settlement with
the notification chain's outcome (`none` = the chain failed, so the whole
amount counts as unused; `some u` = the chain reported `u` unused). -/
def MultiTokenContract.mt_transfer_call_settled (s : MultiTokenContract)
    (caller receiver_id token_id : String) (amount : Nat) (chain : Option Nat) :
    Except MTError (List Nat × MultiTokenContract) :=
  match s.internal_transfer caller receiver_id token_id amount with
  | .error e => .error e
  | .ok s1 =>
    .ok (mt_resolve_transfer caller receiver_id
      [(token_id, amount, chain.getD amount)] s1)

/-- Exchange instruction parsed from the opaque message
(src/src/defi.rs:43-59). -/
inductive ExchangeAction where
  | Swap (token_ids : List String) (amounts : List Nat)
  | SwapWithChange (token_ids : List String) (amounts change_amounts : List Nat)
  | Fail
deriving DecidableEq, Repr

/-- The escrow receiver contract state (src/src/defi.rs:27-30). -/
structure DeFi where
  multi_token_account_id : String
deriving DecidableEq, Repr

/-- Arguments of the `escrow_transfer` call the receiver issues back to
the ledger (src/src/defi.rs:13-22). -/
structure EscrowCall where
  receiver_id : String
  token_ids : List String
  amounts : List Nat
  change_amounts : List Nat
deriving DecidableEq, Repr

/-- Method `DeFi::mt_on_transfer` (src/src/defi.rs:63-107): first requires the
caller to be the configured multi-token ledger account (panic
`UntrustedCaller`, message "Invalid caller"), then parses the message
(`msg = none` models a string `serde_json` rejects) and dispatches on the
action; on success it returns the `escrow_transfer` call it issues. -/
def DeFi.mt_on_transfer (d : DeFi) (caller sender_id : String)
    (token_ids : List String) (amounts : List Nat) (msg : Option ExchangeAction) :
    Except MTError EscrowCall :=
  if caller ≠ d.multi_token_account_id then .error .UntrustedCaller
  else
    match msg with
    | none => .error .UnparseableMessage
    | some (.Swap tids amts) =>
      .ok { receiver_id := sender_id, token_ids := tids, amounts := amts,
            change_amounts := List.replicate amts.length 0 }
    | some (.SwapWithChange tids amts chg) =>
      if amts.length = chg.length then
        .ok { receiver_id := sender_id, token_ids := tids, amounts := amts,
              change_amounts := chg }
      else .error .MismatchedLengths
    | some .Fail => .error .DeliberateFailure

/-- A completed top-level ledger call (the return value, if any, is
dropped; a failed call leaves the state unchanged, because a NEAR panic
discards the call's mutations). -/
inductive MTOp where
  | mint (caller token_owner_id : String) (supply : Nat)
  | transfer (caller receiver_id token_id : String) (amount : Nat)
  | batchTransfer (caller receiver_id : String)
      (token_ids : List String) (amounts : List Nat)
  | transferCall (caller receiver_id token_id : String) (amount : Nat)
      (chain : Option Nat)
  | resolveTransfer (sender_id receiver_id : String)
      (items : List (String × (Nat × Nat)))
deriving DecidableEq, Repr

/-- Whether an op is a mint (the only value-creating operation). -/
def MTOp.isMint : MTOp → Bool
  | .mint _ _ _ => true
  | _ => false

/-- Run one completed top-level call against the ledger. -/
def applyOp (op : MTOp) (s : MultiTokenContract) : MultiTokenContract :=
  match op with
  | .mint c o sup =>
    match s.mt_mint c o sup with
    | .ok p => p.2
    | .error _ => s
  | .transfer c r t a =>
    match s.mt_transfer c r t a with
    | .ok s1 => s1
    | .error _ => s
  | .batchTransfer c r ts as =>
    match s.mt_batch_transfer c r ts as with
    | .ok s1 => s1
    | .error _ => s
  | .transferCall c r t a chain =>
    match s.mt_transfer_call_settled c r t a chain with
    | .ok p => p.2
    | .error _ => s
  | .resolveTransfer snd rcv items => (mt_resolve_transfer snd rcv items s).2

/-- The ledger state after a sequence of completed top-level calls,
starting from a freshly constructed contract. -/
def execOps (owner : String) (ops : List MTOp) : MultiTokenContract :=
  ops.foldl (fun s op => applyOp op s) (MultiTokenContract.new owner)

/-- Sum of the values of an association list (all balance entries). -/
def sumMap (m : List (String × Nat)) : Nat := (m.map Prod.snd).sum

/-- Sum of all account balances recorded for a token. -/
def sumBalances (s : MultiTokenContract) (t : String) : Nat :=
  sumMap ((alookup t s.balances_per_token).getD [])

/-- The recorded total supply of a token (0 if never minted). -/
def supplyD (s : MultiTokenContract) (t : String) : Nat :=
  (alookup t s.total_supply).getD 0

theorem alookup_ainsert_self {β : Type} (k : String) (v : β) (m : List (String × β)) :
    alookup k (ainsert k v m) = some v := by
  induction m with
  | nil => simp [ainsert, alookup]
  | cons p rest ih =>
    obtain ⟨k', v'⟩ := p
    by_cases h : k = k' <;> simp [ainsert, alookup, h, ih]

theorem alookup_ainsert_ne {β : Type} {k kq : String} (h : kq ≠ k) (v : β)
    (m : List (String × β)) : alookup kq (ainsert k v m) = alookup kq m := by
  induction m with
  | nil => simp [ainsert, alookup, h]
  | cons p rest ih =>
    obtain ⟨k', v'⟩ := p
    by_cases hk : k = k'
    · subst hk
      simp [ainsert, alookup, h]
    · by_cases hq : kq = k' <;> simp [ainsert, alookup, hk, hq, ih]

theorem sumMap_ainsert (k : String) (v : Nat) (m : List (String × Nat)) :
    sumMap (ainsert k v m) + (alookup k m).getD 0 = sumMap m + v := by
  induction m with
  | nil => simp [ainsert, alookup, sumMap]
  | cons p rest ih =>
    obtain ⟨k', v'⟩ := p
    by_cases h : k = k'
    · subst h
      simp [ainsert, alookup, sumMap]
      omega
    · simp [ainsert, alookup, sumMap, h] at ih ⊢
      omega

/-- Elimination form of a successful `internal_transfer`: the exact
guards that were passed and the exact shape of the new state. -/
theorem internal_transfer_ok_elim {s s1 : MultiTokenContract} {c r t : String} {a : Nat}
    (h : s.internal_transfer c r t a = .ok s1) :
    c ≠ r ∧ a ≠ 0 ∧ ∃ m, alookup t s.balances_per_token = some m ∧
      a ≤ (alookup c m).getD 0 ∧
      (alookup r (ainsert c ((alookup c m).getD 0 - a) m)).getD 0 + a ≤ U128MAX ∧
      s1 = { s with balances_per_token :=
        (ainsert t
          (ainsert r ((alookup r (ainsert c ((alookup c m).getD 0 - a) m)).getD 0 + a)
            (ainsert c ((alookup c m).getD 0 - a) m))
          s.balances_per_token) } := by
  simp only [MultiTokenContract.internal_transfer] at h
  split at h
  · exact absurd h (by simp)
  rename_i hcr
  split at h
  · exact absurd h (by simp)
  rename_i ha
  split at h
  · exact absurd h (by simp)
  rename_i m hm
  split at h
  · exact absurd h (by simp)
  rename_i hbal
  split at h
  · exact absurd h (by simp)
  rename_i hov
  refine ⟨hcr, ha, m, hm, by omega, by omega, ?_⟩
  exact (Except.ok.injEq _ _).mp h.symm

/-- Introduction form: the guards imply success with the explicit state. -/
theorem internal_transfer_ok_intro (s : MultiTokenContract) (c r t : String) (a : Nat)
    (m : List (String × Nat)) (hcr : c ≠ r) (ha : a ≠ 0)
    (hm : alookup t s.balances_per_token = some m)
    (hbal : a ≤ (alookup c m).getD 0)
    (hov : (alookup r (ainsert c ((alookup c m).getD 0 - a) m)).getD 0 + a ≤ U128MAX) :
    s.internal_transfer c r t a = .ok { s with balances_per_token :=
      (ainsert t
        (ainsert r ((alookup r (ainsert c ((alookup c m).getD 0 - a) m)).getD 0 + a)
          (ainsert c ((alookup c m).getD 0 - a) m))
        s.balances_per_token) } := by
  simp only [MultiTokenContract.internal_transfer, hm, if_neg hcr, if_neg ha]
  rw [if_neg (by omega), if_neg (by omega)]

/-- A successful `internal_transfer` touches only `balances_per_token`. -/
theorem internal_transfer_frame {s s1 : MultiTokenContract} {c r t : String} {a : Nat}
    (h : s.internal_transfer c r t a = .ok s1) :
    s1.owner_id = s.owner_id ∧ s1.total_supply = s.total_supply ∧
      s1.owner_by_id = s.owner_by_id ∧ s1.tokens_per_owner = s.tokens_per_owner ∧
      s1.next_token_id = s.next_token_id := by
  obtain ⟨_, _, m, hm, _, _, hs1⟩ := internal_transfer_ok_elim h
  subst hs1
  exact ⟨rfl, rfl, rfl, rfl, rfl⟩

/-- A successful `internal_transfer` moves value around inside one token's
balance map without changing any token's balance sum. -/
theorem internal_transfer_sum {s s1 : MultiTokenContract} {c r t : String} {a : Nat}
    (h : s.internal_transfer c r t a = .ok s1) (u : String) :
    sumBalances s1 u = sumBalances s u := by
  obtain ⟨hcr, ha, m, hm, hbal, hov, hs1⟩ := internal_transfer_ok_elim h
  subst hs1
  by_cases hu : u = t
  · subst hu
    have e1 := sumMap_ainsert c ((alookup c m).getD 0 - a) m
    have e2 := sumMap_ainsert r
      ((alookup r (ainsert c ((alookup c m).getD 0 - a) m)).getD 0 + a)
      (ainsert c ((alookup c m).getD 0 - a) m)
    simp only [sumBalances, alookup_ainsert_self, hm, Option.getD_some]
    omega
  · simp only [sumBalances, alookup_ainsert_ne hu]

/-- Helper `settle_one` touches only `balances_per_token`. -/
theorem settle_one_frame (snd rcv t : String) (a u : Nat) (s : MultiTokenContract) :
    (settle_one snd rcv t a u s).2.owner_id = s.owner_id ∧
      (settle_one snd rcv t a u s).2.total_supply = s.total_supply ∧
      (settle_one snd rcv t a u s).2.owner_by_id = s.owner_by_id ∧
      (settle_one snd rcv t a u s).2.tokens_per_owner = s.tokens_per_owner ∧
      (settle_one snd rcv t a u s).2.next_token_id = s.next_token_id :=
  ⟨rfl, rfl, rfl, rfl, rfl⟩

/-- Helper `settle_one` moves value around inside one token's balance map without
changing any token's balance sum. -/
theorem settle_one_sum (snd rcv t : String) (a u : Nat) (s : MultiTokenContract)
    (v : String) : sumBalances (settle_one snd rcv t a u s).2 v = sumBalances s v := by
  by_cases hv : v = t
  · subst hv
    simp only [settle_one, sumBalances, alookup_ainsert_self, Option.getD_some]
    set m := (alookup v s.balances_per_token).getD [] with hm
    set rb := (alookup rcv m).getD 0 with hrb
    have e1 := sumMap_ainsert rcv (rb - min u rb) m
    have e2 := sumMap_ainsert snd
      ((alookup snd (ainsert rcv (rb - min u rb) m)).getD 0 + min u rb)
      (ainsert rcv (rb - min u rb) m)
    have hmin : min u rb ≤ rb := Nat.min_le_right u rb
    omega
  · simp only [settle_one, sumBalances, alookup_ainsert_ne hv]

/-- Elimination form of a successful `mt_mint`. -/
theorem mt_mint_ok_elim {s : MultiTokenContract} {c o : String} {sup : Nat}
    {p : Token × MultiTokenContract} (h : s.mt_mint c o sup = .ok p) :
    c = s.owner_id ∧ s.next_token_id + 1 ≤ U64MAX ∧
      p.1 = { token_id := Nat.repr (s.next_token_id + 1), owner_id := o, supply := sup } ∧
      p.2 = { s with
        next_token_id := s.next_token_id + 1
        total_supply := ainsert (Nat.repr (s.next_token_id + 1)) sup s.total_supply
        owner_by_id := ainsert (Nat.repr (s.next_token_id + 1)) o s.owner_by_id
        balances_per_token := ainsert (Nat.repr (s.next_token_id + 1))
          (ainsert o sup []) s.balances_per_token } := by
  simp only [MultiTokenContract.mt_mint] at h
  split at h
  · exact absurd h (by simp)
  rename_i hc
  split at h
  · exact absurd h (by simp)
  rename_i hn
  rw [not_not] at hc
  have hp := (Except.ok.injEq _ _).mp h.symm
  exact ⟨hc, by omega, by rw [hp], by rw [hp]⟩

/-- Settlement (`mt_resolve_transfer`) never changes any token's balance
sum: it only moves the reversed amount between receiver and sender. -/
theorem mt_resolve_transfer_sum (snd rcv : String)
    (items : List (String × (Nat × Nat))) (s : MultiTokenContract) (u : String) :
    sumBalances (mt_resolve_transfer snd rcv items s).2 u = sumBalances s u := by
  induction items generalizing s with
  | nil => rfl
  | cons it rest ih =>
    obtain ⟨t, a, uu⟩ := it
    simp only [mt_resolve_transfer]
    rw [ih, settle_one_sum]

/-- Settlement touches only `balances_per_token`. -/
theorem mt_resolve_transfer_frame (snd rcv : String)
    (items : List (String × (Nat × Nat))) (s : MultiTokenContract) :
    (mt_resolve_transfer snd rcv items s).2.owner_id = s.owner_id ∧
      (mt_resolve_transfer snd rcv items s).2.total_supply = s.total_supply ∧
      (mt_resolve_transfer snd rcv items s).2.owner_by_id = s.owner_by_id ∧
      (mt_resolve_transfer snd rcv items s).2.tokens_per_owner = s.tokens_per_owner ∧
      (mt_resolve_transfer snd rcv items s).2.next_token_id = s.next_token_id := by
  induction items generalizing s with
  | nil => exact ⟨rfl, rfl, rfl, rfl, rfl⟩
  | cons it rest ih =>
    obtain ⟨t, a, uu⟩ := it
    simp only [mt_resolve_transfer]
    exact ih (settle_one snd rcv t a uu s).2

/-- The batch loop preserves every token's balance sum and every field
other than `balances_per_token`. -/
theorem batch_go_sum_frame {c r : String} {l : List (String × Nat)}
    {s s1 : MultiTokenContract}
    (h : MultiTokenContract.batch_go c r l s = .ok s1) :
    (∀ u, sumBalances s1 u = sumBalances s u) ∧
      s1.owner_id = s.owner_id ∧ s1.total_supply = s.total_supply ∧
      s1.owner_by_id = s.owner_by_id ∧ s1.tokens_per_owner = s.tokens_per_owner ∧
      s1.next_token_id = s.next_token_id := by
  induction l generalizing s with
  | nil =>
    simp only [MultiTokenContract.batch_go] at h
    have hs := (Except.ok.injEq _ _).mp h
    subst hs
    exact ⟨fun u => rfl, rfl, rfl, rfl, rfl, rfl⟩
  | cons p rest ih =>
    obtain ⟨t, a⟩ := p
    simp only [MultiTokenContract.batch_go] at h
    split at h
    · exact absurd h (by simp)
    rename_i s2 hs2
    obtain ⟨hsum, ho, hts, hob, htpo, hnt⟩ := ih h
    refine ⟨fun u => ?_, ?_, ?_, ?_, ?_, ?_⟩
    · rw [hsum u, internal_transfer_sum hs2 u]
    all_goals
      obtain ⟨f1, f2, f3, f4, f5⟩ := internal_transfer_frame hs2
      simp_all

/-- Invariant: every token's recorded balances sum to its total supply. -/
def supplyInv (s : MultiTokenContract) : Prop :=
  ∀ t, sumBalances s t = supplyD s t

/-- Every completed top-level call preserves the supply invariant. -/
theorem applyOp_supplyInv (op : MTOp) (s : MultiTokenContract) (hs : supplyInv s) :
    supplyInv (applyOp op s) := by
  cases op with
  | mint c o sup =>
    simp only [applyOp]
    split
    · rename_i p hp
      obtain ⟨hc, hn, hp1, hp2⟩ := mt_mint_ok_elim hp
      intro u
      rw [hp2]
      by_cases hu : u = Nat.repr (s.next_token_id + 1)
      · subst hu
        simp [sumBalances, supplyD, alookup_ainsert_self, sumMap, ainsert]
      · simp only [sumBalances, supplyD, alookup_ainsert_ne hu]
        exact hs u
    · exact hs
  | transfer c r t a =>
    simp only [applyOp, MultiTokenContract.mt_transfer]
    split
    · rename_i s1 hs1
      intro u
      rw [internal_transfer_sum hs1 u,
        show supplyD s1 u = supplyD s u by
          simp [supplyD, (internal_transfer_frame hs1).2.1]]
      exact hs u
    · exact hs
  | batchTransfer c r ts as =>
    simp only [applyOp, MultiTokenContract.mt_batch_transfer]
    split
    · rename_i s1 hs1
      split at hs1
      · exact absurd hs1 (by simp)
      · obtain ⟨hsum, ho, hts, hob, htpo, hnt⟩ := batch_go_sum_frame hs1
        intro u
        rw [hsum u, show supplyD s1 u = supplyD s u by simp [supplyD, hts]]
        exact hs u
    · exact hs
  | transferCall c r t a chain =>
    simp only [applyOp, MultiTokenContract.mt_transfer_call_settled]
    split
    · rename_i p hp
      split at hp
      · exact absurd hp (by simp)
      rename_i s1 hs1
      have hp2 := congrArg Prod.snd ((Except.ok.injEq _ _).mp hp.symm)
      intro u
      rw [hp2, mt_resolve_transfer_sum, internal_transfer_sum hs1 u]
      rw [show supplyD (mt_resolve_transfer c r [(t, a, chain.getD a)] s1).2 u
            = supplyD s u by
          simp [supplyD, (mt_resolve_transfer_frame c r _ s1).2.1,
            (internal_transfer_frame hs1).2.1]]
      exact hs u
    · exact hs
  | resolveTransfer snd rcv items =>
    intro u
    simp only [applyOp]
    rw [mt_resolve_transfer_sum,
      show supplyD (mt_resolve_transfer snd rcv items s).2 u = supplyD s u by
        simp [supplyD, (mt_resolve_transfer_frame snd rcv items s).2.1]]
    exact hs u

/-- Folding completed top-level calls preserves the supply invariant. -/
theorem foldl_applyOp_supplyInv (ops : List MTOp) (s : MultiTokenContract)
    (hs : supplyInv s) :
    supplyInv (ops.foldl (fun s op => applyOp op s) s) := by
  induction ops generalizing s with
  | nil => exact hs
  | cons op rest ih =>
    rw [List.foldl_cons]
    exact ih _ (applyOp_supplyInv op s hs)

/-- The supply invariant holds in every state reachable by completed
top-level calls from a fresh contract. -/
theorem execOps_supplyInv (owner : String) (ops : List MTOp) :
    supplyInv (execOps owner ops) := by
  refine foldl_applyOp_supplyInv ops _ ?_
  intro t
  simp [MultiTokenContract.new, sumBalances, supplyD, alookup, sumMap]

/-- No completed top-level call ever writes the `tokens_per_owner`
reverse index. -/
theorem applyOp_tokens_per_owner (op : MTOp) (s : MultiTokenContract) :
    (applyOp op s).tokens_per_owner = s.tokens_per_owner := by
  cases op with
  | mint c o sup =>
    simp only [applyOp]
    split
    · rename_i p hp
      rw [(mt_mint_ok_elim hp).2.2.2]
    · rfl
  | transfer c r t a =>
    simp only [applyOp, MultiTokenContract.mt_transfer]
    split
    · rename_i s1 hs1
      exact (internal_transfer_frame hs1).2.2.2.1
    · rfl
  | batchTransfer c r ts as =>
    simp only [applyOp, MultiTokenContract.mt_batch_transfer]
    split
    · rename_i s1 hs1
      split at hs1
      · exact absurd hs1 (by simp)
      · exact (batch_go_sum_frame hs1).2.2.2.2.1
    · rfl
  | transferCall c r t a chain =>
    simp only [applyOp, MultiTokenContract.mt_transfer_call_settled]
    split
    · rename_i p hp
      split at hp
      · exact absurd hp (by simp)
      rename_i s1 hs1
      have hp2 := congrArg Prod.snd ((Except.ok.injEq _ _).mp hp.symm)
      rw [hp2, (mt_resolve_transfer_frame c r _ s1).2.2.2.1,
        (internal_transfer_frame hs1).2.2.2.1]
    · rfl
  | resolveTransfer snd rcv items =>
    simp only [applyOp]
    exact (mt_resolve_transfer_frame snd rcv items s).2.2.2.1

/-- In every reachable state the reverse index is still empty. -/
theorem execOps_tokens_per_owner (owner : String) (ops : List MTOp) :
    (execOps owner ops).tokens_per_owner = [] := by
  rw [execOps]
  have key : ∀ (l : List MTOp) (s : MultiTokenContract),
      (l.foldl (fun s op => applyOp op s) s).tokens_per_owner = s.tokens_per_owner := by
    intro l
    induction l with
    | nil => intro s; rfl
    | cons op rest ih =>
      intro s
      rw [List.foldl_cons, ih, applyOp_tokens_per_owner]
  rw [key]
  rfl

theorem omap_drop {α β : Type} (f : α → Option β) (xs : List α) (ys : List β)
    (h : omap f xs = some ys) (i : Nat) : omap f (xs.drop i) = some (ys.drop i) := by
  induction xs generalizing ys i with
  | nil =>
    simp only [omap] at h
    have hy := (Option.some.injEq _ _).mp h
    subst hy
    simp [omap]
  | cons a as ih =>
    cases i with
    | zero => simpa using h
    | succ n =>
      simp only [omap] at h
      cases hfa : f a with
      | none => rw [hfa] at h; exact absurd h (by simp)
      | some b =>
        rw [hfa] at h
        cases hrest : omap f as with
        | none => rw [hrest] at h; exact absurd h (by simp)
        | some bs =>
          rw [hrest] at h
          have hy := (Option.some.injEq _ _).mp h
          subst hy
          simpa using ih bs hrest n

theorem omap_take {α β : Type} (f : α → Option β) (xs : List α) (ys : List β)
    (h : omap f xs = some ys) (l : Nat) : omap f (xs.take l) = some (ys.take l) := by
  induction xs generalizing ys l with
  | nil =>
    simp only [omap] at h
    have hy := (Option.some.injEq _ _).mp h
    subst hy
    simp [omap]
  | cons a as ih =>
    cases l with
    | zero =>
      simp only [omap] at h
      cases hfa : f a with
      | none => rw [hfa] at h; exact absurd h (by simp)
      | some b =>
        rw [hfa] at h
        cases hrest : omap f as with
        | none => rw [hrest] at h; exact absurd h (by simp)
        | some bs =>
          rw [hrest] at h
          have hy := (Option.some.injEq _ _).mp h
          subst hy
          simp [omap]
    | succ n =>
      simp only [omap] at h
      cases hfa : f a with
      | none => rw [hfa] at h; exact absurd h (by simp)
      | some b =>
        rw [hfa] at h
        cases hrest : omap f as with
        | none => rw [hrest] at h; exact absurd h (by simp)
        | some bs =>
          rw [hrest] at h
          have hy := (Option.some.injEq _ _).mp h
          subst hy
          simp only [List.take_succ_cons, List.take, omap, hfa, ih bs hrest n]

instance {ε α : Type} [DecidableEq ε] [DecidableEq α] : DecidableEq (Except ε α)
  | .error e, .error f =>
    if h : e = f then .isTrue (by rw [h]) else .isFalse (by simp [h])
  | .error _, .ok _ => .isFalse (by simp)
  | .ok _, .error _ => .isFalse (by simp)
  | .ok a, .ok b =>
    if h : a = b then .isTrue (by rw [h]) else .isFalse (by simp [h])

/-- C1: the length guard of `mt_batch_transfer` is inverted. In a state
where "S" holds 100 of token "1": (i) an equal-length call (one token,
one amount) is rejected with the mismatched-lengths panic, contradicting
the claim that equal-length lists pass the length check; (ii) a
mismatched call (one token, two amounts) passes the guard, silently zips
down to the shorter list and mutates the ledger, transferring 60 to "R",
contradicting the claim that mismatched calls fail with
`MismatchedLengths` and mutate nothing. -/
theorem c1_batch_length_check_inverted :
    ((execOps "o" [MTOp.mint "o" "S" 100]).mt_batch_transfer "S" "R" ["1"] [100]
      = .error .MismatchedLengths) ∧
    ((execOps "o" [MTOp.mint "o" "S" 100]).mt_batch_transfer "S" "R" ["1"] [60, 40]).isOk
      = true ∧
    (applyOp (MTOp.batchTransfer "S" "R" ["1"] [60, 40])
        (execOps "o" [MTOp.mint "o" "S" 100])).mt_balance_of "R" "1" = .ok 60 :=
  ⟨by decide, by decide, by decide⟩

/-- C6: in every state reachable from a fresh contract by completed
top-level calls, `mt_tokens_for_owner` returns the empty list for every
account and every pagination window, because no operation ever writes the
`tokens_per_owner` reverse index. -/
theorem c6_tokens_for_owner_always_empty (owner : String) (ops : List MTOp)
    (account : String) (fi lim : Option Nat) :
    (execOps owner ops).mt_tokens_for_owner account fi lim = some [] := by
  simp [MultiTokenContract.mt_tokens_for_owner, execOps_tokens_per_owner, alookup]

/-- C7: `mt_balance_of` returns 0 for an account with no recorded entry
in an existing token's balance map, fails with `TokenNotFound` when the
token has no balance map, and `mt_mint` is what creates a token's balance
map (so a minted token always has one). -/
theorem c7_balance_of_spec :
    (∀ (s : MultiTokenContract) (acct t : String) (m : List (String × Nat)),
      alookup t s.balances_per_token = some m → alookup acct m = none →
      s.mt_balance_of acct t = .ok 0) ∧
    (∀ (s : MultiTokenContract) (acct t : String),
      alookup t s.balances_per_token = none →
      s.mt_balance_of acct t = .error .TokenNotFound) ∧
    (∀ (s s1 : MultiTokenContract) (c o : String) (sup : Nat) (tok : Token),
      s.mt_mint c o sup = .ok (tok, s1) →
      alookup tok.token_id s1.balances_per_token = some (ainsert o sup [])) := by
  refine ⟨?_, ?_, ?_⟩
  · intro s acct t m hm hacct
    simp [MultiTokenContract.mt_balance_of,
      MultiTokenContract.internal_unwrap_balance_of, hm, hacct]
  · intro s acct t hm
    simp [MultiTokenContract.mt_balance_of,
      MultiTokenContract.internal_unwrap_balance_of, hm]
  · intro s s1 c o sup tok h
    obtain ⟨hc, hn, hp1, hp2⟩ := mt_mint_ok_elim h
    simp only at hp1 hp2
    rw [hp2, hp1]
    exact alookup_ainsert_self _ _ _

/-- C7 witness: in the state with one minted token "1" wholly owned by
"S", account "R" has balance 0 under token "1", and token "2" (never
minted) yields `TokenNotFound`. -/
theorem c7_balance_of_spec_witness :
    (execOps "o" [MTOp.mint "o" "S" 100]).mt_balance_of "R" "1" = .ok 0 ∧
    (execOps "o" [MTOp.mint "o" "S" 100]).mt_balance_of "R" "2"
      = .error .TokenNotFound :=
  ⟨c7_balance_of_spec.1 (execOps "o" [MTOp.mint "o" "S" 100]) "R" "1" [("S", 100)]
      (by decide) (by decide),
    c7_balance_of_spec.2.1 (execOps "o" [MTOp.mint "o" "S" 100]) "R" "2" (by decide)⟩

/-- C9: `DeFi::mt_on_transfer` rejects every caller other than the
configured multi-token ledger account with `UntrustedCaller`, regardless
of the message, and issues no `escrow_transfer` call. -/
theorem c9_on_transfer_untrusted_caller (d : DeFi) (caller sender_id : String)
    (token_ids : List String) (amounts : List Nat) (msg : Option ExchangeAction)
    (h : caller ≠ d.multi_token_account_id) :
    d.mt_on_transfer caller sender_id token_ids amounts msg
      = .error .UntrustedCaller := by
  simp [DeFi.mt_on_transfer, h]

/-- C9 witness: a spoofed caller is rejected. -/
theorem c9_on_transfer_untrusted_caller_witness :
    DeFi.mt_on_transfer { multi_token_account_id := "mt" } "evil" "S" ["1"] [5]
      (some .Fail) = .error .UntrustedCaller :=
  c9_on_transfer_untrusted_caller { multi_token_account_id := "mt" } "evil" "S"
    ["1"] [5] (some .Fail) (by decide)

/-- Every completed non-mint call preserves every token's balance sum. -/
theorem applyOp_sum_nonmint (op : MTOp) (s : MultiTokenContract)
    (h : op.isMint = false) (t : String) :
    sumBalances (applyOp op s) t = sumBalances s t := by
  cases op with
  | mint c o sup => simp [MTOp.isMint] at h
  | transfer c r tk a =>
    simp only [applyOp, MultiTokenContract.mt_transfer]
    split
    · rename_i s1 hs1
      exact internal_transfer_sum hs1 t
    · rfl
  | batchTransfer c r ts as =>
    simp only [applyOp, MultiTokenContract.mt_batch_transfer]
    split
    · rename_i s1 hs1
      split at hs1
      · exact absurd hs1 (by simp)
      · exact (batch_go_sum_frame hs1).1 t
    · rfl
  | transferCall c r tk a chain =>
    simp only [applyOp, MultiTokenContract.mt_transfer_call_settled]
    split
    · rename_i p hp
      split at hp
      · exact absurd hp (by simp)
      rename_i s1 hs1
      have hp2 := congrArg Prod.snd ((Except.ok.injEq _ _).mp hp.symm)
      rw [hp2, mt_resolve_transfer_sum, internal_transfer_sum hs1 t]
    · rfl
  | resolveTransfer snd rcv items =>
    simp only [applyOp]
    exact mt_resolve_transfer_sum snd rcv items s t

/-- C2: after every sequence of completed top-level calls (mint,
transfer, batch transfer, transfer-call with settlement, bare
settlement), every token's recorded balances sum to its total supply; and
every completed non-mint call leaves every token's balance sum unchanged,
i.e. only mint creates value and nothing destroys it. -/
theorem c2_supply_conservation :
    (∀ (owner : String) (ops : List MTOp) (t : String),
      sumBalances (execOps owner ops) t = supplyD (execOps owner ops) t) ∧
    (∀ (op : MTOp) (s : MultiTokenContract) (t : String), op.isMint = false →
      sumBalances (applyOp op s) t = sumBalances s t) :=
  ⟨fun owner ops t => execOps_supplyInv owner ops t,
    fun op s t h => applyOp_sum_nonmint op s h t⟩

/-- C2 witness: concrete run — after minting 100 of token "1" to "S" and
transferring 40 to "R", the balances of token "1" still sum to its
supply, and the transfer step itself changed no token's balance sum. -/
theorem c2_supply_conservation_witness :
    sumBalances
        (execOps "o" [MTOp.mint "o" "S" 100, MTOp.transfer "S" "R" "1" 40]) "1"
      = supplyD
        (execOps "o" [MTOp.mint "o" "S" 100, MTOp.transfer "S" "R" "1" 40]) "1" ∧
    sumBalances
        (applyOp (MTOp.transfer "S" "R" "1" 40) (execOps "o" [MTOp.mint "o" "S" 100])) "1"
      = sumBalances (execOps "o" [MTOp.mint "o" "S" 100]) "1" :=
  ⟨c2_supply_conservation.1 "o" [MTOp.mint "o" "S" 100, MTOp.transfer "S" "R" "1" 40] "1",
    c2_supply_conservation.2 (MTOp.transfer "S" "R" "1" 40)
      (execOps "o" [MTOp.mint "o" "S" 100]) "1" rfl⟩

/-- The failure behavior of `transfer` written from the spec's words
(§4.2 / claim C3), for comparison with `mt_transfer`: the error the call
must produce (checked in the claim's order against the pre-state), or
`none` when the call must succeed. -/
def transfer_error_spec (s : MultiTokenContract) (c r t : String) (a : Nat) :
    Option MTError :=
  if c = r then some .SameAccount
  else if a = 0 then some .ZeroAmount
  else
    match alookup t s.balances_per_token with
    | none => some .TokenNotFound
    | some m =>
      if (alookup c m).getD 0 < a then some .InsufficientBalance
      else if U128MAX < (alookup r m).getD 0 + a then some .Overflow
      else none

/-- C3: `mt_transfer` fails exactly when the spec-side error function
says so, with exactly that error; it succeeds exactly when that function
returns `none`; and a failing call leaves the ledger unchanged (a panic
discards the call's mutations, as `applyOp` reflects). -/
theorem c3_transfer_error_characterization (s : MultiTokenContract)
    (c r t : String) (a : Nat) :
    (∀ e, s.mt_transfer c r t a = .error e ↔ transfer_error_spec s c r t a = some e) ∧
    (transfer_error_spec s c r t a = none ↔ ∃ s1, s.mt_transfer c r t a = .ok s1) ∧
    (∀ e, s.mt_transfer c r t a = .error e → applyOp (MTOp.transfer c r t a) s = s) := by
  refine ⟨fun e => ?_, ?_, fun e he => by simp [applyOp, he]⟩
  all_goals
    simp only [MultiTokenContract.mt_transfer, MultiTokenContract.internal_transfer,
      transfer_error_spec]
    by_cases hcr : c = r
    · simp [hcr]
    · by_cases ha : a = 0
      · simp [hcr, ha]
      · cases hm : alookup t s.balances_per_token with
        | none => simp [hcr, ha, hm]
        | some m =>
          have hrc : r ≠ c := fun hh => hcr hh.symm
          have hrb : (alookup r (ainsert c ((alookup c m).getD 0 - a) m)).getD 0
              = (alookup r m).getD 0 := by rw [alookup_ainsert_ne hrc]
          by_cases hbal : (alookup c m).getD 0 < a
          · simp [hcr, ha, hm, hbal]
          · by_cases hov : U128MAX < (alookup r m).getD 0 + a
            · simp [hcr, ha, hm, hbal, hrb, hov]
            · simp [hcr, ha, hm, hbal, hrb, hov]

/-- C3 witness: a same-account transfer fails and the ledger state is the
untouched pre-state. -/
theorem c3_transfer_error_characterization_witness :
    applyOp (MTOp.transfer "S" "S" "1" 5) (execOps "o" [MTOp.mint "o" "S" 100])
      = execOps "o" [MTOp.mint "o" "S" 100] :=
  (c3_transfer_error_characterization (execOps "o" [MTOp.mint "o" "S" 100])
    "S" "S" "1" 5).2.2 .SameAccount (by decide)

/-- C4: when sender ≠ receiver, the amount is positive, the token exists,
the sender holds at least the amount and the receiver's credit does not
overflow u128, `mt_transfer` succeeds, debiting the sender and crediting
the receiver by exactly the amount in the single resulting state. -/
theorem c4_transfer_success_moves_amount (s : MultiTokenContract)
    (c r t : String) (a : Nat) (m : List (String × Nat))
    (hcr : c ≠ r) (ha : 0 < a)
    (hm : alookup t s.balances_per_token = some m)
    (hbal : a ≤ (alookup c m).getD 0)
    (hov : (alookup r m).getD 0 + a ≤ U128MAX) :
    ∃ s1, s.mt_transfer c r t a = .ok s1 ∧
      s1.mt_balance_of c t = .ok ((alookup c m).getD 0 - a) ∧
      s1.mt_balance_of r t = .ok ((alookup r m).getD 0 + a) := by
  have hrc : r ≠ c := fun hh => hcr hh.symm
  have hrb : (alookup r (ainsert c ((alookup c m).getD 0 - a) m)).getD 0
      = (alookup r m).getD 0 := by rw [alookup_ainsert_ne hrc]
  have hok := internal_transfer_ok_intro s c r t a m hcr (by omega) hm hbal
    (by rw [hrb]; exact hov)
  refine ⟨_, hok, ?_, ?_⟩
  · simp only [MultiTokenContract.mt_balance_of,
      MultiTokenContract.internal_unwrap_balance_of, alookup_ainsert_self,
      Option.getD_some]
    rw [alookup_ainsert_ne hcr, alookup_ainsert_self]
    rfl
  · simp only [MultiTokenContract.mt_balance_of,
      MultiTokenContract.internal_unwrap_balance_of, alookup_ainsert_self,
      Option.getD_some]
    rw [hrb]

/-- C4 witness: with "S" holding 100 of token "1", transferring 40 to "R"
leaves "S" with 60 and "R" with 40. -/
theorem c4_transfer_success_moves_amount_witness :
    ∃ s1, (execOps "o" [MTOp.mint "o" "S" 100]).mt_transfer "S" "R" "1" 40 = .ok s1 ∧
      s1.mt_balance_of "S" "1" = .ok 60 ∧ s1.mt_balance_of "R" "1" = .ok 40 :=
  c4_transfer_success_moves_amount (execOps "o" [MTOp.mint "o" "S" 100])
    "S" "R" "1" 40 [("S", 100)] (by decide) (by decide) (by decide) (by decide)
    (by decide)

/-- C5: settlement reverses exactly the reported unused amount `u`
(0 ≤ u ≤ amount, covered by the receiver's balance) from receiver back to
sender and returns `amount − u` as the retained amount; with a failed
notification chain (`Fail`) the whole amount is unused, so a
transfer-call of 100 settles back to sender 100 / receiver 0. -/
theorem c5_resolve_reverses_unused :
    (∀ (s : MultiTokenContract) (snd rcv t : String) (a u : Nat),
      snd ≠ rcv → u ≤ a →
      u ≤ (alookup rcv ((alookup t s.balances_per_token).getD [])).getD 0 →
      (mt_resolve_transfer snd rcv [(t, a, u)] s).1 = [a - u] ∧
      (mt_resolve_transfer snd rcv [(t, a, u)] s).2.mt_balance_of rcv t
        = .ok ((alookup rcv ((alookup t s.balances_per_token).getD [])).getD 0 - u) ∧
      (mt_resolve_transfer snd rcv [(t, a, u)] s).2.mt_balance_of snd t
        = .ok ((alookup snd ((alookup t s.balances_per_token).getD [])).getD 0 + u)) ∧
    (∃ s2,
      (execOps "o" [MTOp.mint "o" "S" 100]).mt_transfer_call_settled
          "S" "R" "1" 100 none = .ok ([0], s2) ∧
      s2.mt_balance_of "S" "1" = .ok 100 ∧ s2.mt_balance_of "R" "1" = .ok 0) := by
  constructor
  · intro s snd rcv t a u hne hua hurb
    have hrs : rcv ≠ snd := fun hh => hne hh.symm
    have hmin : min u ((alookup rcv ((alookup t s.balances_per_token).getD [])).getD 0)
        = u := Nat.min_eq_left hurb
    refine ⟨rfl, ?_, ?_⟩
    · simp only [mt_resolve_transfer, settle_one, MultiTokenContract.mt_balance_of,
        MultiTokenContract.internal_unwrap_balance_of, alookup_ainsert_self,
        Option.getD_some]
      rw [alookup_ainsert_ne hrs, alookup_ainsert_self, hmin]
      rfl
    · simp only [mt_resolve_transfer, settle_one, MultiTokenContract.mt_balance_of,
        MultiTokenContract.internal_unwrap_balance_of, alookup_ainsert_self,
        Option.getD_some]
      rw [alookup_ainsert_ne hne, hmin]
  · exact ⟨applyOp (MTOp.transferCall "S" "R" "1" 100 none)
      (execOps "o" [MTOp.mint "o" "S" 100]), by decide, by decide, by decide⟩

/-- C5 witness: with "R" holding the transferred 100 of token "1",
settling with unused = 100 returns retained [0] and moves the full 100
back to "S". -/
theorem c5_resolve_reverses_unused_witness :
    (mt_resolve_transfer "S" "R" [("1", 100, 100)]
        (applyOp (MTOp.transfer "S" "R" "1" 100)
          (execOps "o" [MTOp.mint "o" "S" 100]))).1 = [0] ∧
    (mt_resolve_transfer "S" "R" [("1", 100, 100)]
        (applyOp (MTOp.transfer "S" "R" "1" 100)
          (execOps "o" [MTOp.mint "o" "S" 100]))).2.mt_balance_of "R" "1" = .ok 0 ∧
    (mt_resolve_transfer "S" "R" [("1", 100, 100)]
        (applyOp (MTOp.transfer "S" "R" "1" 100)
          (execOps "o" [MTOp.mint "o" "S" 100]))).2.mt_balance_of "S" "1" = .ok 100 :=
  c5_resolve_reverses_unused.1
    (applyOp (MTOp.transfer "S" "R" "1" 100) (execOps "o" [MTOp.mint "o" "S" 100]))
    "S" "R" "1" 100 100 (by decide) (by decide) (by decide)

/-- C8 counterexample: the claim says `mt_tokens` skips the first
`from_index` tokens, so over 3 minted tokens an offset of `2^64` must
leave nothing (the claimed window `(drop (2^64)).take 3` of the
enumeration is empty, second conjunct). The code instead feeds the u128
offset through an `as usize` cast, which wraps `2^64` to 0, skips
nothing, and returns all three tokens (first conjunct). -/
theorem c8_pagination_truncation_counterexample :
    ((execOps "o" [MTOp.mint "o" "a" 10, MTOp.mint "o" "b" 20,
        MTOp.mint "o" "c" 30]).mt_tokens (some (2 ^ 64)) (some 3)
      = some [⟨"1", "a", 10⟩, ⟨"2", "b", 20⟩, ⟨"3", "c", 30⟩]) ∧
    ((([⟨"1", "a", 10⟩, ⟨"2", "b", 20⟩, ⟨"3", "c", 30⟩] : List Token).drop
        (2 ^ 64)).take 3 = []) :=
  ⟨by decide, by decide⟩

/-- C8 (amended): `mt_tokens` paginates the full mint-ordered enumeration
with the offset and limit truncated by the source's `as usize` casts —
with explicit offset `i` and limit `l` it returns exactly the window
`(drop (i % 2^32)).take (l % 2^32)` of the full listing (offset defaults
to 0, limit to `u64::MAX`, both likewise cast); for offsets and limits
below `2^32` this is the claimed window, and over three minted tokens,
offset 1 with limit 1 yields exactly the second token in mint order. -/
theorem c8_tokens_pagination :
    (∀ (s : MultiTokenContract) (i l : Nat) (all : List Token),
      s.owner_by_id.length ≤ 2 ^ 32 - 1 →
      s.mt_tokens none none = some all →
      s.mt_tokens (some i) (some l)
        = some ((all.drop (i % 2 ^ 32)).take (l % 2 ^ 32))) ∧
    ((execOps "o" [MTOp.mint "o" "a" 10, MTOp.mint "o" "b" 20, MTOp.mint "o" "c" 30]).mt_tokens
        (some 1) (some 1)
      = some [{ token_id := "2", owner_id := "b", supply := 20 }]) := by
  constructor
  · intro s i l all hlen hall
    simp only [MultiTokenContract.mt_tokens, usize_of, Option.getD_some,
      Option.getD_none] at hall ⊢
    rw [Nat.zero_mod, List.drop_zero,
      show U64MAX % 2 ^ 32 = 2 ^ 32 - 1 by decide,
      List.take_of_length_le hlen] at hall
    exact omap_take _ _ _ (omap_drop _ _ _ hall (i % 2 ^ 32)) (l % 2 ^ 32)
  · decide

/-- C8 witness: instantiating the truncated pagination window lemma on
the three-token state reproduces the second token. -/
theorem c8_tokens_pagination_witness :
    (execOps "o" [MTOp.mint "o" "a" 10, MTOp.mint "o" "b" 20,
        MTOp.mint "o" "c" 30]).mt_tokens (some 1) (some 1)
      = some (([⟨"1", "a", 10⟩, ⟨"2", "b", 20⟩, ⟨"3", "c", 30⟩].drop
          (1 % 2 ^ 32)).take (1 % 2 ^ 32)) :=
  c8_tokens_pagination.1
    (execOps "o" [MTOp.mint "o" "a" 10, MTOp.mint "o" "b" 20, MTOp.mint "o" "c" 30])
    1 1 [⟨"1", "a", 10⟩, ⟨"2", "b", 20⟩, ⟨"3", "c", 30⟩] (by decide) (by decide)

/-- C10: a successful `mt_transfer` changes only the sender's and the
receiver's entries in that one token's balance map: the owner id, total
supply map, owner registry, reverse index and counter are unchanged,
every other token's balance map is unchanged, and every other account's
balance under the transferred token is unchanged. -/
theorem c10_transfer_frame (s s1 : MultiTokenContract) (c r t : String) (a : Nat)
    (h : s.mt_transfer c r t a = .ok s1) :
    s1.owner_id = s.owner_id ∧ s1.total_supply = s.total_supply ∧
    s1.owner_by_id = s.owner_by_id ∧ s1.tokens_per_owner = s.tokens_per_owner ∧
    s1.next_token_id = s.next_token_id ∧
    (∀ u, u ≠ t → alookup u s1.balances_per_token = alookup u s.balances_per_token) ∧
    (∀ acct, acct ≠ c → acct ≠ r →
      s1.mt_balance_of acct t = s.mt_balance_of acct t) := by
  obtain ⟨hcr, ha, m, hm, hbal, hov, hs1⟩ := internal_transfer_ok_elim h
  subst hs1
  refine ⟨rfl, rfl, rfl, rfl, rfl, fun u hu => alookup_ainsert_ne hu _ _,
    fun acct hac har => ?_⟩
  simp only [MultiTokenContract.mt_balance_of,
    MultiTokenContract.internal_unwrap_balance_of, alookup_ainsert_self, hm]
  rw [alookup_ainsert_ne har, alookup_ainsert_ne hac]

/-- C10 witness: in a two-token ledger, transferring 40 of token "1" from
"S" to "R" leaves the supply map, token "2"'s balance map and bystander
"X"'s balance of token "1" untouched. -/
theorem c10_transfer_frame_witness :
    (applyOp (MTOp.transfer "S" "R" "1" 40)
        (execOps "o" [MTOp.mint "o" "S" 100, MTOp.mint "o" "W" 50])).total_supply
      = (execOps "o" [MTOp.mint "o" "S" 100, MTOp.mint "o" "W" 50]).total_supply ∧
    alookup "2" (applyOp (MTOp.transfer "S" "R" "1" 40)
        (execOps "o" [MTOp.mint "o" "S" 100, MTOp.mint "o" "W" 50])).balances_per_token
      = alookup "2"
        (execOps "o" [MTOp.mint "o" "S" 100, MTOp.mint "o" "W" 50]).balances_per_token ∧
    (applyOp (MTOp.transfer "S" "R" "1" 40)
        (execOps "o" [MTOp.mint "o" "S" 100, MTOp.mint "o" "W" 50])).mt_balance_of "X" "1"
      = (execOps "o" [MTOp.mint "o" "S" 100, MTOp.mint "o" "W" 50]).mt_balance_of "X" "1" := by
  have h : (execOps "o" [MTOp.mint "o" "S" 100, MTOp.mint "o" "W" 50]).mt_transfer
      "S" "R" "1" 40
      = .ok (applyOp (MTOp.transfer "S" "R" "1" 40)
          (execOps "o" [MTOp.mint "o" "S" 100, MTOp.mint "o" "W" 50])) := by decide
  obtain ⟨f1, f2, f3, f4, f5, f6, f7⟩ := c10_transfer_frame _ _ "S" "R" "1" 40 h
  exact ⟨f2, f6 "2" (by decide), f7 "X" (by decide) (by decide)⟩
